import Mathlib

/-!
Verification development for the distinst CLI partitioning-specification
core (src/src/main.rs).  The Rust functions are shallowly embedded as Lean
definitions; process-terminating validation paths (`eprintln!` + `exit(1)`)
are embedded as typed errors following the taxonomy of the specification.
Rust string primitives (`split`, `starts_with`, `ends_with`, slicing of
ASCII prefixes/suffixes, integer `FromStr`) are modelled on the character
list underlying a `String`.
-/

/-- Model of Rust `str::split` for a one-character separator, at the
character-list level: `"".split(c)` yields `[""]`, and separators at the
ends yield empty pieces. -/
def splitCharAux (c : Char) : List Char → List (List Char)
  | [] => [[]]
  | x :: xs =>
    if x = c then [] :: splitCharAux c xs
    else
      match splitCharAux c xs with
      | [] => [[x]]
      | f :: fs => (x :: f) :: fs

/-- Model of Rust `str::split` with a one-character separator. -/
def rustSplit (c : Char) (s : String) : List String :=
  (splitCharAux c s.data).map (fun l => ⟨l⟩)

/-- Model of Rust `str::starts_with` for an ASCII pattern (byte prefix and
character prefix coincide). -/
def strStartsWith (s p : String) : Bool :=
  p.data.isPrefixOf s.data

/-- Model of Rust `str::ends_with` for an ASCII pattern (byte suffix and
character suffix coincide). -/
def strEndsWith (s p : String) : Bool :=
  p.data.isSuffixOf s.data

/-- Model of Rust slicing `&s[n..]` when the first `n` bytes are ASCII. -/
def strDrop (s : String) (n : Nat) : String :=
  ⟨s.data.drop n⟩

/-- Model of Rust slicing `&s[..s.len() - n]` when the last `n` bytes are
ASCII. -/
def strDropRight (s : String) (n : Nat) : String :=
  ⟨s.data.take (s.data.length - n)⟩

/-- Decimal value of an ASCII digit character, `none` otherwise; models the
per-character step of Rust's integer `FromStr`. -/
def decDigitVal (c : Char) : Option Nat :=
  if '0' ≤ c ∧ c ≤ '9' then some (c.toNat - 48) else none

/-- Accumulator loop of Rust's decimal integer parsing (without overflow,
which is checked against the 64-bit bounds afterwards). -/
def parseNatDigitsAux : List Char → Nat → Option Nat
  | [], acc => some acc
  | c :: cs, acc =>
    match decDigitVal c with
    | some d => parseNatDigitsAux cs (acc * 10 + d)
    | none => none

/-- Decimal parse of a non-empty all-digit character list. -/
def parseNatDigits : List Char → Option Nat
  | [] => none
  | l => parseNatDigitsAux l 0

def i64Min : Int := -(2 ^ 63)

def i64Max : Int := 2 ^ 63 - 1

/-- Digit-and-bound phase of Rust `str::parse::<i64>()`. -/
def parseI64Chars (neg : Bool) (ds : List Char) : Option Int :=
  match parseNatDigits ds with
  | none => none
  | some n =>
    let v : Int := cond neg (-(n : Int)) (n : Int)
    if i64Min ≤ v ∧ v ≤ i64Max then some v else none

/-- Model of Rust `str::parse::<i64>()`: optional sign, at least one ASCII
digit, value within the signed 64-bit range. -/
def parseI64 (s : String) : Option Int :=
  match s.data with
  | [] => none
  | c :: rest =>
    if c = '-' then parseI64Chars true rest
    else if c = '+' then parseI64Chars false rest
    else parseI64Chars false (c :: rest)

/-- Model of Rust `str::parse::<u32>()`: optional `+`, at least one ASCII
digit, value below `2^32`. -/
def parseU32 (s : String) : Option Nat :=
  match s.data with
  | [] => none
  | c :: rest =>
    let go : List Char → Option Nat := fun ds =>
      match parseNatDigits ds with
      | none => none
      | some n => if n < 2 ^ 32 then some n else none
    if c = '+' then go rest else go (c :: rest)

/-- Model of Rust `u32 as i32` (two's-complement reinterpretation). -/
def u32AsI32 (n : Nat) : Int :=
  if n < 2 ^ 31 then (n : Int) else (n : Int) - 2 ^ 32

/-- Model of Rust's wrapping 64-bit signed arithmetic (release-profile
overflow semantics). -/
def wrap64 (x : Int) : Int :=
  (x + 2 ^ 63) % 2 ^ 64 - 2 ^ 63

/-- Reversed (least-significant-first) decimal digits of a natural number,
with explicit fuel so that the definition is structural. -/
def digitsRevAux : Nat → Nat → List Nat
  | 0, _ => []
  | fuel + 1, n =>
    if n < 10 then [n] else n % 10 :: digitsRevAux fuel (n / 10)

/-- Decimal rendering of a natural number, most significant digit first;
models the digit string produced by Rust's `Display` for integers. -/
def natDecimal (n : Nat) : List Char :=
  ((digitsRevAux (n + 1) n).reverse).map Nat.digitChar

/-- Model of Rust's `Display` for `i64` (as used by `format!`): an optional
minus sign followed by the decimal digits. -/
def formatInt : Int → String
  | .ofNat m => ⟨natDecimal m⟩
  | .negSucc m => ⟨'-' :: natDecimal (m + 1)⟩

/-- Value of a least-significant-first digit list. -/
def valRev : List Nat → Nat
  | [] => 0
  | d :: ds => valRev ds * 10 + d

/-! ## Data model

Types owned by the external `distinst` topology model are modelled from the
specification; everything else is translated from `src/src/main.rs`. -/

/-- Modelled from the spec: the partition-flag enumeration of the external
disk model (the seventeen `PED_PARTITION_*` values named by the fixed
token table). -/
inductive PartitionFlag
  | esp | boot | root | swap | hidden | raid | lvm | lba | hpservice
  | palo | prep | msftReserved | appleTvRecovery | diag | legacyBoot
  | msftData | irst
  deriving DecidableEq, Repr

/-- Modelled from the spec: the external generic filesystem-name parser's
value type (a filesystem-type identifier), including the `Lvm` marker used
by the core. -/
inductive FileSystemType
  | ext2 | ext3 | ext4 | fat16 | fat32 | btrfs | f2fs | ntfs | swap | xfs
  | lvm | luks
  deriving DecidableEq, Repr

/-- Modelled from the spec: the external generic filesystem-name parser
(text to filesystem-type value or failure). -/
def parseFileSystemType (s : String) : Option FileSystemType :=
  if s = "ext2" then some .ext2
  else if s = "ext3" then some .ext3
  else if s = "ext4" then some .ext4
  else if s = "fat16" then some .fat16
  else if s = "fat32" then some .fat32
  else if s = "btrfs" then some .btrfs
  else if s = "f2fs" then some .f2fs
  else if s = "ntfs" then some .ntfs
  else if s = "swap" then some .swap
  else if s = "xfs" then some .xfs
  else if s = "lvm" then some .lvm
  else if s = "luks" then some .luks
  else none

/-- Modelled from the spec: the external sector-expression value, whose
canonical forms include raw sector counts, metric megabytes,
percentage-of-disk and named sentinels. -/
inductive Sector
  | start
  | finish
  | unit (n : Nat)
  | megabyte (n : Int)
  | percent (n : Nat)
  deriving DecidableEq, Repr

/-- Modelled from the spec: the external generic sector-expression parser
(text to sector value or failure), accepting raw sector counts,
`"<n>M"` metric-megabyte tokens, `"<n>%"` and the `start`/`end`
sentinels. -/
def extParseSector (s : String) : Option Sector :=
  if s = "start" then some .start
  else if s = "end" then some .finish
  else if strEndsWith s "%" then (parseU32 (strDropRight s 1)).map .percent
  else if strEndsWith s "M" then (parseI64 (strDropRight s 1)).map .megabyte
  else (parseU32 s).map .unit

/-- Modelled from the spec: the external `LvmEncryption` descriptor
(physical-volume name, optional passphrase, optional keyfile). -/
structure LvmEncryption where
  physical_volume : String
  password : Option String
  keydata : Option String
  deriving DecidableEq, Repr

/-- The `PartType` classification of a filesystem field (from the source):
either a plain filesystem or an LVM volume group with optional
encryption. -/
inductive PartType
  | fs (t : FileSystemType)
  | lvm (volume_group : String) (encryption : Option LvmEncryption)
  deriving DecidableEq, Repr

/-- The operation kinds of the specification language, used to tag
field-count errors. -/
inductive Op
  | relabel | delete | move | reuse | create | createLogical
  deriving DecidableEq, Repr

/-- Typed error taxonomy.  Each constructor corresponds to one
`eprintln!` + `exit(1)` site of the source (or, for `panicked`, to the
`unimplemented!` macro); the names follow the specification's taxonomy. -/
inductive Err
  | tooFewFields (op : Op)
  | tooManyFields (op : Op)
  | wrongFieldCount (op : Op)
  | invalidArgument (field : String)
  | mountRequiredWithKey
  | invalidSector (tok : String)
  | invalidFilesystem (tok : String)
  | missingPhysicalVolume
  | missingVolumeGroup
  | emptyCredential
  | invalidField
  | emptySuffixValue
  | invalidPartitionType
  | invalidPartitionId
  | invalidTableKind
  | diskNotFound (name : String)
  | partitionNotFound (id : Int)
  | volumeGroupNotFound (group : String)
  | panicked (msg : String)
  deriving DecidableEq, Repr

/-- Modelled from the spec: partition-table kinds. -/
inductive PartitionTable
  | gpt | msdos
  deriving DecidableEq, Repr

/-- Partition types accepted by `parse_part_type`. -/
inductive PartitionType
  | primary | logical
  deriving DecidableEq, Repr

/-- Modelled from the spec: the external topology model's partition record,
carrying the fields the core reads or mutates (identifier, sector range,
target filesystem, name, volume-group/encryption attachment, mount path,
key identifier with its mount, flags, removal mark, partition type). -/
structure Partition where
  num : Int := 0
  start_sector : Nat := 0
  end_sector : Nat := 0
  fs : Option FileSystemType := none
  name : Option String := none
  volume_group : Option (String × Option LvmEncryption) := none
  mount : Option String := none
  keydata : Option (String × String) := none
  flags : List PartitionFlag := []
  remove : Bool := false
  ptype : PartitionType := .primary
  deriving DecidableEq, Repr

/-- Modelled from the spec: a physical disk of the external topology model:
a name, a partition-table kind, an ordered partition list, and the
external resolution of sector expressions to absolute sectors on this
device (`Disk::get_sector`). -/
structure Disk where
  name : String
  table : Option PartitionTable := none
  partitions : List Partition := []
  getSector : Sector → Nat

/-- Modelled from the spec: a volume group materialized as a logical disk:
its name, its logical volumes, and its resolution of sector expressions
(`LvmDevice::get_sector`). -/
structure LvmDevice where
  name : String
  partitions : List Partition := []
  getSector : Sector → Nat

/-- Modelled from the spec: the mutable `Disks` collection (physical disks
plus, after materialization, the volume groups as logical disks). -/
structure DisksState where
  physical : List Disk := []
  logical : List LvmDevice := []

/-! ## Leaf parsers (translated from the source) -/

/-- The option loop of `parse_fs`'s `enc=` branch: the remaining
comma-separated fields must be `pass=<v>` or `keyfile=<v>` with non-empty
values (else `EmptyCredential`); anything else is `InvalidField`.  Later
occurrences overwrite earlier ones, as in the source. -/
def parseEncOptions : List String → Option String → Option String →
    Except Err (Option String × Option String)
  | [], pass, keydata => .ok (pass, keydata)
  | field :: rest, pass, keydata =>
    if strStartsWith field "pass=" then
      let passval := strDrop field 5
      if passval.data.isEmpty then .error .emptyCredential
      else parseEncOptions rest (some passval) keydata
    else if strStartsWith field "keyfile=" then
      let keyval := strDrop field 8
      if keyval.data.isEmpty then .error .emptyCredential
      else parseEncOptions rest pass (some keyval)
    else .error .invalidField

/-- The `enc=` branch of `parse_fs`, applied to the comma-split remainder:
field 0 is the physical volume, field 1 the volume group; the encryption
descriptor is built only when a passphrase or keyfile was supplied. -/
def parseEncFields : List String → Except Err PartType
  | [] => .error .missingPhysicalVolume
  | [_pv] => .error .missingVolumeGroup
  | pv :: vg :: rest =>
    (parseEncOptions rest none none).map fun pk =>
      .lvm vg
        (if pk.1.isNone && pk.2.isNone then none
         else some ⟨pv, pk.1, pk.2⟩)

/-- Embedding of `parse_fs` (src/src/main.rs:265-338): classify a
filesystem token as `enc=`, `lvm=` or a plain filesystem name. -/
def parse_fs (fs : String) : Except Err PartType :=
  if strStartsWith fs "enc=" then
    parseEncFields (rustSplit ',' (strDrop fs 4))
  else if strStartsWith fs "lvm=" then
    match rustSplit ',' (strDrop fs 4) with
    | [] => .error .missingVolumeGroup
    | vg :: _ => .ok (.lvm vg none)
  else
    match parseFileSystemType fs with
    | some t => .ok (.fs t)
    | none => .error (.invalidFilesystem fs)

/-- The fixed token-to-flag table of `parse_flags`
(src/src/main.rs:363-388). -/
def flagOfToken (flag : String) : Option PartitionFlag :=
  if flag = "esp" then some .esp
  else if flag = "boot" then some .boot
  else if flag = "root" then some .root
  else if flag = "swap" then some .swap
  else if flag = "hidden" then some .hidden
  else if flag = "raid" then some .raid
  else if flag = "lvm" then some .lvm
  else if flag = "lba" then some .lba
  else if flag = "hpservice" then some .hpservice
  else if flag = "palo" then some .palo
  else if flag = "prep" then some .prep
  else if flag = "msft_reserved" then some .msftReserved
  else if flag = "apple_tv_recovery" then some .appleTvRecovery
  else if flag = "diag" then some .diag
  else if flag = "legacy_boot" then some .legacyBoot
  else if flag = "msft_data" then some .msftData
  else if flag = "irst" then some .irst
  else none

/-- Embedding of `parse_flags` (src/src/main.rs:363-388): comma-split the
input and keep the recognized flags, silently discarding the rest. -/
def parse_flags (flags : String) : List PartitionFlag :=
  (rustSplit ',' flags).filterMap flagOfToken

/-- Result of the local normalization step of `parse_sector`: either the
token handed to the external sector-expression parser, or a failed
mebibyte-count parse. -/
inductive NormResult
  | delegate (tok : String)
  | parseFailure
  deriving DecidableEq, Repr

/-- The normalization stage of `parse_sector` (src/src/main.rs:340-361): a
token ending in `MiB` has the suffix stripped, the remainder parsed as an
`i64` mebibyte count, and is reformatted as a metric `"<n>M"` token using
wrapping 64-bit arithmetic; any other token is delegated unchanged. -/
def normalizeSector (sector : String) : NormResult :=
  if strEndsWith sector "MiB" then
    match parseI64 (strDropRight sector 3) with
    | some mebibytes =>
      .delegate (formatInt (Int.tdiv (wrap64 (mebibytes * 1048576)) 1000000) ++ "M")
    | none => .parseFailure
  else .delegate sector

/-- Embedding of `parse_sector` (src/src/main.rs:340-361): normalize, then
delegate to the external sector-expression parser; both a failed mebibyte
parse and a failed delegation surface as `InvalidSector` naming the
original token. -/
def parse_sector (sector : String) : Except Err Sector :=
  match normalizeSector sector with
  | .delegate tok =>
    match extParseSector tok with
    | some s => .ok s
    | none => .error (.invalidSector sector)
  | .parseFailure => .error (.invalidSector sector)

/-- Embedding of `parse_part_type` (src/src/main.rs:247-256). -/
def parse_part_type (table : String) : Except Err PartitionType :=
  if table = "primary" then .ok .primary
  else if table = "logical" then .ok .logical
  else .error .invalidPartitionType

/-! ## Topology-model helpers (modelled from the spec) -/

/-- Modelled from the spec: resolve a disk by name
(`Disks::find_disk_mut`). -/
def findDisk (st : DisksState) (block : String) : Option Disk :=
  st.physical.find? (fun d => d.name == block)

/-- Modelled from the spec: resolve a partition by numeric identifier
within a disk (`Disk::get_partition_mut`). -/
def findPartition (disk : Disk) (part_id : Int) : Option Partition :=
  disk.partitions.find? (fun p => p.num == part_id)

/-- Modelled from the spec: resolve a volume group by name
(`Disks::find_logical_disk_mut`). -/
def findLogical (st : DisksState) (group : String) : Option LvmDevice :=
  st.logical.find? (fun d => d.name == group)

/-- Modelled from the spec: in-place mutation of the first disk with the
given name. -/
def updateFirstDisk : List Disk → String → (Disk → Disk) → List Disk
  | [], _, _ => []
  | d :: ds, block, f =>
    if d.name == block then f d :: ds else d :: updateFirstDisk ds block f

/-- Modelled from the spec: in-place mutation of a partition found by
identifier on a named disk. -/
def updatePartition (st : DisksState) (block : String) (part_id : Int)
    (f : Partition → Partition) : DisksState :=
  { st with
    physical := updateFirstDisk st.physical block (fun d =>
      { d with
        partitions := d.partitions.map (fun p =>
          if p.num == part_id then f p else p) }) }

/-- Modelled from the spec: in-place mutation of the first logical disk
with the given volume-group name. -/
def updateFirstLogical : List LvmDevice → String → (LvmDevice → LvmDevice) →
    List LvmDevice
  | [], _, _ => []
  | d :: ds, group, f =>
    if d.name == group then f d :: ds else d :: updateFirstLogical ds group f

/-- Modelled from the spec: `Disk::add_partition` appends the built
partition descriptor to the named disk, assigning the next identifier
(external geometry validation is out of scope of the core and modelled as
success). -/
def addPartition (st : DisksState) (block : String) (p : Partition) : DisksState :=
  { st with
    physical := updateFirstDisk st.physical block (fun d =>
      { d with
        partitions :=
          d.partitions ++ [{ p with num := (d.partitions.length : Int) + 1 }] }) }

/-! ## Operation parsers (translated from the source) -/

/-- The shared suffix-field loop of `configure_reused`
(src/src/main.rs:553-564) and `configure_new` (src/src/main.rs:628-638):
`mount=`, `flags=` and `keyid=` fields matched by prefix in that order,
anything else rejected; later occurrences overwrite earlier ones. -/
def parseSuffixFields : List String → Option String → Option String →
    Option (List PartitionFlag) →
    Except Err (Option String × Option String × Option (List PartitionFlag))
  | [], key, mount, flags => .ok (key, mount, flags)
  | value :: rest, key, mount, flags =>
    if strStartsWith value "mount=" then
      parseSuffixFields rest key (some (strDrop value 6)) flags
    else if strStartsWith value "flags=" then
      parseSuffixFields rest key mount (some (parse_flags (strDrop value 6)))
    else if strStartsWith value "keyid=" then
      parseSuffixFields rest (some (strDrop value 6)) mount flags
    else .error (.invalidArgument value)

/-- The `values[2]` handling of `configure_reused`: `"reuse"` means no
reformat, anything else goes through `parse_fs`. -/
def parseReuseFs (fs : String) : Except Err (Option PartType) :=
  if fs = "reuse" then .ok none else (parse_fs fs).map some

/-- Embedding of one `configure_tables` iteration (src/src/main.rs:410-441):
`<disk>:<gpt|msdos>`, destructively relabelling the disk. -/
def configure_tables_values (st : DisksState) (values : List String) :
    Except Err DisksState :=
  if values.length ≠ 2 then .error (.wrongFieldCount .relabel)
  else match values with
    | block :: kind :: _ =>
      match findDisk st block with
      | none => .error (.diskNotFound block)
      | some _ =>
        if kind = "gpt" then
          .ok { st with
                physical := updateFirstDisk st.physical block
                  (fun d => { d with table := some .gpt }) }
        else if kind = "msdos" then
          .ok { st with
                physical := updateFirstDisk st.physical block
                  (fun d => { d with table := some .msdos }) }
        else .error .invalidTableKind
    | _ => .error (.wrongFieldCount .relabel)

def configure_tables_one (st : DisksState) (token : String) : Except Err DisksState :=
  configure_tables_values st (rustSplit ':' token)

/-- Embedding of one `configure_removed` iteration
(src/src/main.rs:443-472): a block device followed by partition numbers,
each marked for removal. -/
def configure_removed_values (st : DisksState) (values : List String) :
    Except Err DisksState :=
  match values with
  | [] => .error (.wrongFieldCount .delete)
  | block :: parts =>
    parts.foldlM
      (fun st part =>
        match parseU32 part with
        | none => .error .invalidPartitionId
        | some v =>
          let part_id := u32AsI32 v
          match findDisk st block with
          | none => .error (.diskNotFound block)
          | some disk =>
            match findPartition disk part_id with
            | none => .error (.partitionNotFound part_id)
            | some _ =>
              .ok (updatePartition st block part_id
                (fun p => { p with remove := true })))
      st

def configure_removed_one (st : DisksState) (token : String) : Except Err DisksState :=
  configure_removed_values st (rustSplit ':' token)

/-- Embedding of one `configure_moved` iteration (src/src/main.rs:474-519):
`block:part_id:start-or-none:end-or-none`, moving and/or resizing (the
external mutations are modelled as updating the partition's recorded
sector range). -/
def configure_moved_values (st : DisksState) (values : List String) :
    Except Err DisksState :=
  if values.length ≠ 4 then .error (.wrongFieldCount .move)
  else match values with
    | block :: pidStr :: startStr :: endStr :: _ => do
      let part_id ←
        match parseU32 pidStr with
        | some v => .ok (u32AsI32 v)
        | none => .error .invalidPartitionId
      let startSec ←
        if startStr = "none" then .ok none
        else (parse_sector startStr).map some
      let endSec ←
        if endStr = "none" then .ok none
        else (parse_sector endStr).map some
      match findDisk st block with
      | none => .error (.diskNotFound block)
      | some disk =>
        let st1 :=
          match startSec with
          | some s =>
            updatePartition st block part_id
              (fun p => { p with start_sector := disk.getSector s })
          | none => st
        let st2 :=
          match endSec with
          | some e =>
            updatePartition st1 block part_id
              (fun p => { p with end_sector := disk.getSector e })
          | none => st1
        .ok st2
    | _ => .error (.wrongFieldCount .move)

def configure_moved_one (st : DisksState) (token : String) : Except Err DisksState :=
  configure_moved_values st (rustSplit ':' token)

/-- Embedding of one `configure_reused` iteration
(src/src/main.rs:521-600): `block:part_id:fs-or-reuse` plus optional
suffix fields; a `keyid` without a `mount` is rejected after the disk and
partition lookups, then the filesystem choice and flags are applied. -/
def configure_reused_values (st : DisksState) (values : List String) :
    Except Err DisksState :=
  if values.length < 3 then .error (.tooFewFields .reuse)
  else if values.length > 5 then .error (.tooManyFields .reuse)
  else match values with
    | block :: pidStr :: fsStr :: rest => do
      let part_id ←
        match parseU32 pidStr with
        | some v => .ok (u32AsI32 v)
        | none => .error .invalidPartitionId
      let fs ← parseReuseFs fsStr
      let (key, mount, flags) ← parseSuffixFields rest none none none
      match findDisk st block with
      | none => .error (.diskNotFound block)
      | some disk =>
        match findPartition disk part_id with
        | none => .error (.partitionNotFound part_id)
        | some _ => do
          let st1 ←
            match key with
            | some keyid =>
              match mount with
              | some m =>
                .ok (updatePartition st block part_id
                  (fun p => { p with keydata := some (keyid, m) }))
              | none => .error .mountRequiredWithKey
            | none =>
              match mount with
              | some m =>
                .ok (updatePartition st block part_id
                  (fun p => { p with mount := some m }))
              | none => .ok st
          let st2 :=
            match fs with
            | none => st1
            | some (.fs t) =>
              updatePartition st1 block part_id (fun p => { p with fs := some t })
            | some (.lvm vg enc) =>
              updatePartition st1 block part_id
                (fun p => { p with volume_group := some (vg, enc), fs := some .lvm })
          let st3 :=
            match flags with
            | some fl =>
              updatePartition st2 block part_id (fun p => { p with flags := fl })
            | none => st2
          .ok st3
    | _ => .error (.tooFewFields .reuse)

def configure_reused_one (st : DisksState) (token : String) : Except Err DisksState :=
  configure_reused_values st (rustSplit ':' token)

/-- Embedding of one `configure_new` iteration (src/src/main.rs:602-675):
`block:part_type:start:end:fs` plus optional suffix fields; the partition
descriptor is built, flags attached, the `keyid`/`mount` cross-field rule
checked, and the descriptor appended to the disk. -/
def configure_new_values (st : DisksState) (values : List String) :
    Except Err DisksState :=
  if values.length < 5 then .error (.tooFewFields .create)
  else if values.length > 7 then .error (.tooManyFields .create)
  else match values with
    | block :: kindStr :: startStr :: endStr :: fsStr :: rest => do
      let kind ← parse_part_type kindStr
      let startSec ← parse_sector startStr
      let endSec ← parse_sector endStr
      let fs ← parse_fs fsStr
      let (key, mount, flags) ← parseSuffixFields rest none none none
      match findDisk st block with
      | none => .error (.diskNotFound block)
      | some disk =>
        let startAbs := disk.getSector startSec
        let endAbs := disk.getSector endSec
        let builder0 : Partition :=
          match fs with
          | .lvm vg enc =>
            { start_sector := startAbs, end_sector := endAbs,
              fs := some .lvm, ptype := kind, volume_group := some (vg, enc) }
          | .fs t =>
            { start_sector := startAbs, end_sector := endAbs,
              fs := some t, ptype := kind }
        let builder1 :=
          match flags with
          | some fl => { builder0 with flags := fl }
          | none => builder0
        match key with
        | some keyid =>
          match mount with
          | some m =>
            .ok (addPartition st block { builder1 with keydata := some (keyid, m) })
          | none => .error .mountRequiredWithKey
        | none =>
          match mount with
          | some m => .ok (addPartition st block { builder1 with mount := some m })
          | none => .ok (addPartition st block builder1)
    | _ => .error (.tooFewFields .create)

def configure_new_one (st : DisksState) (token : String) : Except Err DisksState :=
  configure_new_values st (rustSplit ':' token)

/-- The `LogicalArgs` record of the source (src/src/main.rs:677-691). -/
structure LogicalArgs where
  group : String
  name : String
  size : Sector
  fs : FileSystemType
  mount : Option String
  flags : Option (List PartitionFlag)

/-- The suffix-field loop of `parse_logical` (src/src/main.rs:708-729):
only `mount=` and `flags=` are recognized, each with a non-empty value. -/
def parseLogicalSuffix : List String → Option String →
    Option (List PartitionFlag) →
    Except Err (Option String × Option (List PartitionFlag))
  | [], mount, flags => .ok (mount, flags)
  | arg :: rest, mount, flags =>
    if strStartsWith arg "mount=" then
      let mountval := strDrop arg 6
      if mountval.data.isEmpty then .error .emptySuffixValue
      else parseLogicalSuffix rest (some mountval) flags
    else if strStartsWith arg "flags=" then
      let flagval := strDrop arg 6
      if flagval.data.isEmpty then .error .emptySuffixValue
      else parseLogicalSuffix rest mount (some (parse_flags flagval))
    else .error (.invalidArgument arg)

/-- Embedding of one `parse_logical` iteration (src/src/main.rs:693-745):
`group:name:size:fs` plus optional suffix fields.  A filesystem field that
classifies as a Logical-Volume choice hits the `unimplemented!` branch,
embedded as the distinct `panicked` outcome. -/
def parseLogicalValues (values : List String) : Except Err LogicalArgs :=
  if values.length < 4 then .error (.tooFewFields .createLogical)
  else if values.length > 6 then .error (.tooManyFields .createLogical)
  else match values with
    | group :: pname :: sizeStr :: fsStr :: rest => do
      let (mount, flags) ← parseLogicalSuffix rest none none
      let size ← parse_sector sizeStr
      let fs ←
        match parse_fs fsStr with
        | .ok (.fs t) => .ok t
        | .ok (.lvm _ _) => .error (.panicked "LUKS on LVM is unsupported")
        | .error e => .error e
      .ok { group := group, name := pname, size := size, fs := fs,
            mount := mount, flags := flags }
    | _ => .error (.tooFewFields .createLogical)

/-- The closure body of `configure_lvm` (src/src/main.rs:749-783): locate
the volume group, compute the placement of the new logical volume after
the group's last existing one, build the named descriptor with optional
mount and flags, and append it (external failure modelled as success). -/
def configureLvmApply (st : DisksState) (args : LogicalArgs) :
    Except Err DisksState :=
  match findLogical st args.group with
  | none => .error (.volumeGroupNotFound args.group)
  | some dev =>
    let startSec :=
      match dev.partitions.getLast? with
      | some partition => partition.end_sector + 1
      | none => 0
    let endSec := startSec + dev.getSector args.size
    let p0 : Partition :=
      { num := (dev.partitions.length : Int) + 1,
        start_sector := startSec, end_sector := endSec,
        fs := some args.fs, name := some args.name }
    let p1 :=
      match args.mount with
      | some m => { p0 with mount := some m }
      | none => p0
    let p2 :=
      match args.flags with
      | some fl => { p1 with flags := fl }
      | none => p1
    .ok { st with
          logical := updateFirstLogical st.logical args.group
            (fun d => { d with partitions := d.partitions ++ [p2] }) }

/-- Embedding of one `configure_lvm` iteration (src/src/main.rs:747-787):
parse the logical-volume token, then apply it to the topology model. -/
def configure_lvm_one (st : DisksState) (token : String) : Except Err DisksState :=
  match parseLogicalValues (rustSplit ':' token) with
  | .ok args => configureLvmApply st args
  | .error e => .error e

/-- Modelled from the spec: the default resolution of sector expressions on
a freshly materialized volume group (512-byte sectors). -/
def defaultLvmGetSector : Sector → Nat
  | .start => 0
  | .finish => 0
  | .unit n => n
  | .megabyte n => n.toNat * 2048
  | .percent _ => 0

/-- Modelled from the spec: `Disks::initialize_volume_groups` materializes
one logical disk per volume-group name attached to an LVM-tagged
partition (step 7 of the pipeline). -/
def initializeVolumeGroups (st : DisksState) : DisksState :=
  let vgNames :=
    st.physical.foldl
      (fun acc d =>
        acc ++ d.partitions.filterMap (fun p => p.volume_group.map Prod.fst))
      []
  { st with
    logical :=
      vgNames.foldl
        (fun acc vg =>
          if acc.any (fun d => d.name == vg) then acc
          else acc ++ [{ name := vg, partitions := [],
                         getSector := defaultLvmGetSector }])
        st.logical }

/-! ## Configuration pipeline (translated from `configure_disks`,
src/src/main.rs:789-812) -/

/-- The per-flag argument groups consumed by `configure_disks`. -/
structure ConfigArgs where
  blocks : List String := []
  tables : List String := []
  deletes : List String := []
  moves : List String := []
  reuses : List String := []
  news : List String := []
  logicals : List String := []

/-- Disk registration (src/src/main.rs:792-795): every requested block
device must resolve against the available disks
(`Disk::from_name`, modelled from the spec as a lookup). -/
def registerDisks (avail : List Disk) (st : DisksState) (blocks : List String) :
    Except Err DisksState :=
  blocks.foldlM
    (fun st block =>
      match avail.find? (fun d => d.name == block) with
      | some d => .ok { st with physical := st.physical ++ [d] }
      | none => .error (.diskNotFound block))
    st

/-- Embedding of `configure_disks` (src/src/main.rs:789-812): the fixed
pipeline order — register disks, relabel tables, delete, move, reuse,
create, materialize volume groups, create-logical. -/
def configure_disks (avail : List Disk) (m : ConfigArgs) : Except Err DisksState := do
  let st ← registerDisks avail {} m.blocks
  let st ← m.tables.foldlM configure_tables_one st
  let st ← m.deletes.foldlM configure_removed_one st
  let st ← m.moves.foldlM configure_moved_one st
  let st ← m.reuses.foldlM configure_reused_one st
  let st ← m.news.foldlM configure_new_one st
  let st := initializeVolumeGroups st
  let st ← m.logicals.foldlM configure_lvm_one st
  .ok st

/-- Decidable equality for `Except` results with decidable payloads. -/
instance {e a : Type} [DecidableEq e] [DecidableEq a] : DecidableEq (Except e a) :=
  fun x y =>
    match x, y with
    | .error u, .error v =>
      decidable_of_iff (u = v) ⟨by rintro rfl; rfl, by intro h; injection h⟩
    | .error _, .ok _ => isFalse (by intro h; injection h)
    | .ok _, .error _ => isFalse (by intro h; injection h)
    | .ok u, .ok v =>
      decidable_of_iff (u = v) ⟨by rintro rfl; rfl, by intro h; injection h⟩

/-! ## Concrete fixtures used by the witnesses -/

/-- A sample resolution of sector expressions (512-byte sectors on a small
device), used only to instantiate the topology model. -/
def sampleGetSector : Sector → Nat
  | .start => 0
  | .finish => 10000000
  | .unit n => n
  | .megabyte n => n.toNat * 2048
  | .percent p => p * 100000

/-- A sample physical disk with one partition. -/
def sda : Disk :=
  { name := "sda", table := some PartitionTable.gpt,
    partitions := [{ num := 1, start_sector := 0, end_sector := 1000 }],
    getSector := sampleGetSector }

/-- A sample topology state holding only `sda`. -/
def sampleState : DisksState := { physical := [sda], logical := [] }

/-- A sample materialized volume group with one logical volume ending at
sector 99. -/
def vgdev : LvmDevice :=
  { name := "vg1",
    partitions := [{ num := 1, start_sector := 0, end_sector := 99 }],
    getSector := sampleGetSector }

/-- A sample topology state holding only the volume group `vg1`. -/
def lvmState : DisksState := { physical := [], logical := [vgdev] }

/-- A sample `LogicalArgs` value targeting `vg1`. -/
def lvArgs : LogicalArgs :=
  { group := "vg1", name := "lv", size := Sector.unit 5,
    fs := FileSystemType.ext4, mount := none, flags := none }

/-- Argument groups for a run that creates an LVM partition requesting
volume group `vg1` and then places a logical volume in `vg1`. -/
def c1args : ConfigArgs :=
  { blocks := ["sda"], news := ["sda:primary:2048:500M:lvm=vg1"],
    logicals := ["vg1:root:100M:ext4"] }

/-- The same run but with the Create-Logical operation naming the
never-requested volume group `vg2`. -/
def c1argsBad : ConfigArgs :=
  { blocks := ["sda"], news := ["sda:primary:2048:500M:lvm=vg1"],
    logicals := ["vg2:root:100M:ext4"] }

/-- The same run with no Create-Logical operation at all. -/
def c1argsNoLogical : ConfigArgs :=
  { blocks := ["sda"], news := ["sda:primary:2048:500M:lvm=vg1"],
    logicals := [] }

/-! ## Helper lemmas -/

theorem splitCharAux_ne_nil (c : Char) (l : List Char) : splitCharAux c l ≠ [] := by
  cases l with
  | nil => simp [splitCharAux]
  | cons x xs =>
    simp only [splitCharAux]
    split
    · simp
    · split <;> simp

theorem rustSplit_ne_nil (c : Char) (s : String) : rustSplit c s ≠ [] := by
  simp [rustSplit, splitCharAux_ne_nil]

theorem isPrefixOf_append_self (p t : List Char) : p.isPrefixOf (p ++ t) = true := by
  induction p with
  | nil => simp [List.isPrefixOf]
  | cons c cs ih => simp [List.isPrefixOf, ih]

theorem strStartsWith_append (p t : String) : strStartsWith (p ++ t) p = true := by
  have h : (p ++ t).data = p.data ++ t.data := rfl
  simp only [strStartsWith, h]
  exact isPrefixOf_append_self _ _

theorem strEndsWith_append (t p : String) : strEndsWith (t ++ p) p = true := by
  have h : (t ++ p).data = t.data ++ p.data := rfl
  simp only [strEndsWith, h, List.isSuffixOf, List.reverse_append]
  exact isPrefixOf_append_self _ _

theorem strDrop_append (p t : String) : strDrop (p ++ t) p.data.length = t := by
  have h : (p ++ t).data = p.data ++ t.data := rfl
  simp [strDrop, h, List.drop_left]

theorem strDropRight_append (t p : String) : strDropRight (t ++ p) p.data.length = t := by
  have h : (t ++ p).data = t.data ++ p.data := rfl
  simp [strDropRight, h, List.length_append, List.take_left]

theorem wrap64_eq_of_bounds (x : Int) (h1 : i64Min ≤ x) (h2 : x ≤ i64Max) :
    wrap64 x = x := by
  have hlo : (0 : Int) ≤ x + 2 ^ 63 := by
    simp only [i64Min] at h1; omega
  have hhi : x + 2 ^ 63 < 2 ^ 64 := by
    simp only [i64Max] at h2; omega
  simp only [wrap64, Int.emod_eq_of_lt hlo hhi]
  omega

theorem digitsRevAux_ne_nil (fuel n : Nat) (h : 0 < fuel) :
    digitsRevAux fuel n ≠ [] := by
  cases fuel with
  | zero => omega
  | succ f =>
    simp only [digitsRevAux]
    split <;> simp

theorem digitsRevAux_lt_ten (fuel n : Nat) (hfuel : n < fuel) :
    ∀ d ∈ digitsRevAux fuel n, d < 10 := by
  induction fuel generalizing n with
  | zero => omega
  | succ f ih =>
    simp only [digitsRevAux]
    split
    · intro d hd
      simp only [List.mem_singleton] at hd
      omega
    · intro d hd
      simp only [List.mem_cons] at hd
      rcases hd with h | h
      · omega
      · have hdiv : n / 10 < n := Nat.div_lt_self (by omega) (by omega)
        exact ih (n / 10) (by omega) d h

theorem valRev_digitsRevAux (fuel n : Nat) (hfuel : n < fuel) :
    valRev (digitsRevAux fuel n) = n := by
  induction fuel generalizing n with
  | zero => omega
  | succ f ih =>
    simp only [digitsRevAux]
    split
    · simp [valRev]
    · have hdiv : n / 10 < n := Nat.div_lt_self (by omega) (by omega)
      simp only [valRev, ih (n / 10) (by omega)]
      omega

theorem decDigitVal_digitChar (d : Nat) (h : d < 10) :
    decDigitVal (Nat.digitChar d) = some d := by
  interval_cases d <;> rfl

theorem digitChar_ne_sign (d : Nat) (h : d < 10) :
    Nat.digitChar d ≠ '-' ∧ Nat.digitChar d ≠ '+' := by
  interval_cases d <;> exact ⟨by decide, by decide⟩

theorem parseNatDigitsAux_map_digitChar (ds : List Nat) (acc : Nat)
    (h : ∀ d ∈ ds, d < 10) :
    parseNatDigitsAux (ds.map Nat.digitChar) acc =
      some (ds.foldl (fun a d => a * 10 + d) acc) := by
  induction ds generalizing acc with
  | nil => rfl
  | cons d ds ih =>
    have hd : d < 10 := h d (by simp)
    simp only [List.map_cons, parseNatDigitsAux, decDigitVal_digitChar d hd,
      List.foldl_cons]
    exact ih (acc * 10 + d) (fun x hx => h x (by simp [hx]))

theorem foldl_reverse_valRev (ds : List Nat) :
    ds.reverse.foldl (fun a d => a * 10 + d) 0 = valRev ds := by
  rw [List.foldl_reverse]
  induction ds with
  | nil => rfl
  | cons d ds ih => simp [List.foldr_cons, valRev, ih]

theorem parseNatDigits_natDecimal (n : Nat) : parseNatDigits (natDecimal n) = some n := by
  have hne : digitsRevAux (n + 1) n ≠ [] := digitsRevAux_ne_nil _ _ (by omega)
  have hlt := digitsRevAux_lt_ten (n + 1) n (by omega)
  have hval := valRev_digitsRevAux (n + 1) n (by omega)
  obtain ⟨d, ds, hds⟩ := List.exists_cons_of_ne_nil hne
  have hrevne : natDecimal n ≠ [] := by
    simp [natDecimal, hds]
  have hmain : parseNatDigitsAux (natDecimal n) 0 = some n := by
    have := parseNatDigitsAux_map_digitChar ((digitsRevAux (n + 1) n).reverse) 0
      (fun x hx => hlt x (List.mem_reverse.mp hx))
    rw [natDecimal, this, foldl_reverse_valRev, hval]
  obtain ⟨c, cs, hcs⟩ := List.exists_cons_of_ne_nil hrevne
  rw [hcs] at hmain ⊢
  exact hmain

theorem natDecimal_head_digit (n : Nat) :
    ∃ c cs, natDecimal n = c :: cs ∧ c ≠ '-' ∧ c ≠ '+' := by
  have hne : digitsRevAux (n + 1) n ≠ [] := digitsRevAux_ne_nil _ _ (by omega)
  have hlt := digitsRevAux_lt_ten (n + 1) n (by omega)
  have hrevne : (digitsRevAux (n + 1) n).reverse ≠ [] := by
    simpa using hne
  obtain ⟨d, ds, hds⟩ := List.exists_cons_of_ne_nil hrevne
  have hd : d < 10 := by
    have : d ∈ (digitsRevAux (n + 1) n).reverse := by simp [hds]
    exact hlt d (List.mem_reverse.mp this)
  refine ⟨Nat.digitChar d, ds.map Nat.digitChar, ?_, (digitChar_ne_sign d hd).1,
    (digitChar_ne_sign d hd).2⟩
  simp [natDecimal, hds]

/-- Round trip: parsing the decimal rendering of an in-range 64-bit signed
integer recovers it. -/
theorem parseI64_formatInt (N : Int) (h1 : i64Min ≤ N) (h2 : N ≤ i64Max) :
    parseI64 (formatInt N) = some N := by
  cases N with
  | ofNat m =>
    obtain ⟨c, cs, hcs, hneg, hpos⟩ := natDecimal_head_digit m
    have hdata : (formatInt (Int.ofNat m)).data = natDecimal m := rfl
    have hparse : parseNatDigits (c :: cs) = some m := by
      rw [← hcs]; exact parseNatDigits_natDecimal m
    have hcond : i64Min ≤ ((m : Nat) : Int) ∧ ((m : Nat) : Int) ≤ i64Max := by
      constructor
      · simp only [i64Min]; omega
      · exact_mod_cast h2
    simp only [parseI64, hdata, hcs, if_neg hneg, if_neg hpos, parseI64Chars, hparse,
      Bool.cond_false, if_pos hcond]
    rfl
  | negSucc m =>
    have hdata : (formatInt (Int.negSucc m)).data = '-' :: natDecimal (m + 1) := rfl
    have hparse : parseNatDigits (natDecimal (m + 1)) = some (m + 1) :=
      parseNatDigits_natDecimal (m + 1)
    have hlo : i64Min ≤ Int.negSucc m := h1
    rw [Int.negSucc_eq] at hlo
    have hcond : i64Min ≤ -(((m + 1 : Nat) : Int)) ∧ -(((m + 1 : Nat) : Int)) ≤ i64Max := by
      constructor
      · push_cast
        omega
      · simp only [i64Max]
        push_cast
        omega
    simp only [parseI64, hdata, if_pos rfl, parseI64Chars, hparse, Bool.cond_true,
      if_pos hcond, Option.some.injEq]
    rw [Int.negSucc_eq]
    push_cast
    ring_nf

/-! ## Claim theorems -/

/-- C6: the flag-token mapper never fails: it returns exactly the flags
whose tokens appear in the fixed seventeen-entry table, silently
discarding every unrecognized token; the empty input yields the empty
set, and `"boot,bogus,esp"` yields exactly the boot and esp flags. -/
theorem c6_flag_mapper_total :
    (∀ (s : String) (f : PartitionFlag),
      f ∈ parse_flags s ↔ ∃ tok ∈ rustSplit ',' s, flagOfToken tok = some f) ∧
    parse_flags "" = [] ∧
    parse_flags "boot,bogus,esp" = [.boot, .esp] := by
  refine ⟨fun s f => ?_, by decide, by decide⟩
  simp [parse_flags, List.mem_filterMap]

/-- C9: a sector token that does not end in `MiB` is delegated unchanged
to the external sector-expression parser: the normalizer performs no
transformation on that path. -/
theorem c9_normalizer_identity (s : String) (h : strEndsWith s "MiB" = false) :
    normalizeSector s = .delegate s := by
  simp [normalizeSector, h]

/-- C9 witness: the already-canonical token `"512M"` is delegated
unchanged. -/
theorem c9_normalizer_identity_witness :
    strEndsWith "512M" "MiB" = false ∧ normalizeSector "512M" = .delegate "512M" :=
  ⟨by decide, c9_normalizer_identity "512M" (by decide)⟩

/-- C1: the configuration pipeline applies its stages in the fixed order,
materializing volume groups before Create-Logical runs: a Create-Logical
naming the volume group `vg1` requested by a Create operation of the same
run succeeds and places the logical volume `root` in it; the same run
with the Create-Logical naming the never-requested `vg2` fails with
`VolumeGroupNotFound`; and the run without any Create-Logical operation
still materializes `vg1` (empty) from the Create operation alone. -/
theorem c1_pipeline_order :
    ((configure_disks [sda] c1args).toOption.bind
        (fun st => (findLogical st "vg1").map
          (fun d => d.partitions.map (fun p => p.name))) =
      some [some "root"]) ∧
    (configure_disks [sda] c1argsBad = .error (.volumeGroupNotFound "vg2")) ∧
    ((configure_disks [sda] c1argsNoLogical).toOption.bind
        (fun st => (findLogical st "vg1").map
          (fun d => d.partitions.length)) =
      some 0) :=
  ⟨rfl, rfl, rfl⟩

/-- C2 counterexample: at `N = 2^63` (not representable as an `i64`), the
token `"<N>MiB"` is not normalized to the claimed metric token — the
mebibyte-count parse fails, so the normalizer reports failure
(`InvalidSector`) instead of delegating. -/
theorem c2_counterexample :
    normalizeSector (formatInt 9223372036854775808 ++ "MiB") = .parseFailure ∧
    normalizeSector (formatInt 9223372036854775808 ++ "MiB") ≠
      NormResult.delegate
        (formatInt (Int.tdiv (9223372036854775808 * 1048576) 1000000) ++ "M") := by
  constructor
  · decide
  · decide

/-- C2 (amended): for every integer `N` representable as a signed 64-bit
value and whose product with 1048576 is also representable, normalizing
the sector token `"<N>MiB"` produces the metric token `"<M>M"` with
`M = (N * 1048576) / 1000000` under truncating integer division, which is
then delegated to the external sector-expression parser; in particular
`N = 0` yields `"0M"`, `N = 1` yields `"1M"`, and `N = 1000` yields
`"1048M"`. -/
theorem c2_mib_normalization :
    (∀ N : Int, i64Min ≤ N → N ≤ i64Max →
      i64Min ≤ N * 1048576 → N * 1048576 ≤ i64Max →
      normalizeSector (formatInt N ++ "MiB") =
        .delegate (formatInt (Int.tdiv (N * 1048576) 1000000) ++ "M")) ∧
    normalizeSector "0MiB" = .delegate "0M" ∧
    normalizeSector "1MiB" = .delegate "1M" ∧
    normalizeSector "1000MiB" = .delegate "1048M" := by
  refine ⟨fun N h1 h2 h3 h4 => ?_, by decide, by decide, by decide⟩
  have hend : strEndsWith (formatInt N ++ "MiB") "MiB" = true :=
    strEndsWith_append _ _
  have hlen : ("MiB" : String).data.length = 3 := rfl
  have hdrop : strDropRight (formatInt N ++ "MiB") 3 = formatInt N := by
    rw [← hlen]
    exact strDropRight_append _ _
  simp only [normalizeSector, hend, if_true, hdrop,
    parseI64_formatInt N h1 h2, wrap64_eq_of_bounds _ h3 h4]

/-- C2 witness: the general mebibyte-normalization statement applied at
`N = 1000`. -/
theorem c2_mib_normalization_witness :
    normalizeSector (formatInt 1000 ++ "MiB") =
      .delegate (formatInt (Int.tdiv (1000 * 1048576) 1000000) ++ "M") :=
  c2_mib_normalization.1 1000 (by decide) (by decide) (by decide) (by decide)

/-- C4: in the `enc=` branch of the filesystem parser, an absent field 0
(physical volume) fails with `MissingPhysicalVolume` and an absent
field 1 (volume group) fails with `MissingVolumeGroup`.  The fields-level
facts exhibit both error arms; at the token level a comma-split always
yields at least one field, so only the volume-group error is reachable
and every remainder with fewer than two fields fails with
`MissingVolumeGroup`. -/
theorem c4_enc_missing_fields :
    parseEncFields [] = .error .missingPhysicalVolume ∧
    (∀ pv, parseEncFields [pv] = .error .missingVolumeGroup) ∧
    (∀ rem : String, (rustSplit ',' rem).length < 2 →
      parse_fs ("enc=" ++ rem) = .error .missingVolumeGroup) := by
  refine ⟨rfl, fun pv => rfl, fun rem hlen => ?_⟩
  have hpre : strStartsWith ("enc=" ++ rem) "enc=" = true :=
    strStartsWith_append _ _
  have hlen4 : ("enc=" : String).data.length = 4 := rfl
  have hdrop : strDrop ("enc=" ++ rem) 4 = rem := by
    rw [← hlen4]
    exact strDrop_append _ _
  simp only [parse_fs, hpre, if_true, hdrop]
  rcases hsplit : rustSplit ',' rem with _ | ⟨pv, rest⟩
  · exact absurd hsplit (rustSplit_ne_nil ',' rem)
  · rcases rest with _ | ⟨vg, rest2⟩
    · rfl
    · rw [hsplit] at hlen
      simp only [List.length_cons] at hlen
      omega

/-- C4 witness: the volume-group arm applied to the single-field remainder
`"pv1"`, together with the fields-level physical-volume arm. -/
theorem c4_enc_missing_fields_witness :
    parseEncFields [] = .error .missingPhysicalVolume ∧
    parseEncFields ["pv1"] = .error .missingVolumeGroup ∧
    ((rustSplit ',' "pv1").length < 2 ∧
      parse_fs "enc=pv1" = .error .missingVolumeGroup) :=
  ⟨c4_enc_missing_fields.1, c4_enc_missing_fields.2.1 "pv1",
    by decide, c4_enc_missing_fields.2.2 "pv1" (by decide)⟩

theorem parseEncOptions_isSome (l : List String) :
    ∀ (p k p' k' : Option String),
      parseEncOptions l p k = .ok (p', k') →
      ((p'.isSome || k'.isSome) = true ↔
        (p.isSome || k.isSome) = true ∨
          ∃ f ∈ l,
            (strStartsWith f "pass=" || strStartsWith f "keyfile=") = true) := by
  induction l with
  | nil =>
    intro p k p' k' h
    simp only [parseEncOptions] at h
    injection h with h
    injection h with h1 h2
    subst h1
    subst h2
    simp
  | cons f rest ih =>
    intro p k p' k' h
    simp only [parseEncOptions] at h
    rcases hpass : strStartsWith f "pass=" with _ | _
    · rcases hkey : strStartsWith f "keyfile=" with _ | _
      · rw [hpass, hkey] at h
        simp at h
      · rw [hpass, hkey] at h
        simp only [Bool.false_eq_true, if_false, if_true] at h
        rcases hemp : (strDrop f 8).data.isEmpty with _ | _
        · rw [hemp] at h
          simp only [Bool.false_eq_true, if_false] at h
          have hiff := ih p (some (strDrop f 8)) p' k' h
          rw [hiff]
          constructor
          · rintro (h1 | ⟨g, hg, hgp⟩)
            · right
              exact ⟨f, by simp, by simp [hkey]⟩
            · right
              exact ⟨g, by simp [hg], hgp⟩
          · intro _
            left
            simp
        · rw [hemp] at h
          simp at h
    · rw [hpass] at h
      simp only [if_true] at h
      rcases hemp : (strDrop f 5).data.isEmpty with _ | _
      · rw [hemp] at h
        simp only [Bool.false_eq_true, if_false] at h
        have hiff := ih (some (strDrop f 5)) k p' k' h
        rw [hiff]
        constructor
        · rintro (h1 | ⟨g, hg, hgp⟩)
          · right
            exact ⟨f, by simp, by simp [hpass]⟩
          · right
            exact ⟨g, by simp [hg], hgp⟩
        · intro _
          left
          simp
      · rw [hemp] at h
        simp at h

/-- C3: an `enc=` filesystem token that parses successfully carries an
encryption descriptor if and only if at least one `pass=` or `keyfile=`
suffix field was supplied; with neither supplied, `"enc=pv1,vg1"` yields
the Logical-Volume choice for `vg1` with no encryption descriptor. -/
theorem c3_enc_encryption_iff :
    (∀ (rem vg : String) (enc : Option LvmEncryption),
      parse_fs ("enc=" ++ rem) = .ok (.lvm vg enc) →
      (enc.isSome = true ↔
        ∃ f ∈ (rustSplit ',' rem).drop 2,
          (strStartsWith f "pass=" || strStartsWith f "keyfile=") = true)) ∧
    parse_fs "enc=pv1,vg1" = .ok (.lvm "vg1" none) := by
  refine ⟨fun rem vg enc h => ?_, by decide⟩
  have hpre : strStartsWith ("enc=" ++ rem) "enc=" = true :=
    strStartsWith_append _ _
  have hlen4 : ("enc=" : String).data.length = 4 := rfl
  have hdrop : strDrop ("enc=" ++ rem) 4 = rem := by
    rw [← hlen4]
    exact strDrop_append _ _
  simp only [parse_fs, hpre, if_true, hdrop] at h
  rcases hsplit : rustSplit ',' rem with _ | ⟨pv, _ | ⟨vg0, rest⟩⟩ <;>
    rw [hsplit] at h
  · simp [parseEncFields] at h
  · simp [parseEncFields] at h
  · simp only [parseEncFields, Except.map] at h
    rcases hopt : parseEncOptions rest none none with e | ⟨p', k'⟩ <;>
      rw [hopt] at h
    · simp at h
    · simp only [Except.ok.injEq, PartType.lvm.injEq] at h
      obtain ⟨hvg, henc⟩ := h
      have hiff := parseEncOptions_isSome rest none none p' k' hopt
      have hencSome : enc.isSome = (p'.isSome || k'.isSome) := by
        rw [← henc]
        rcases p' with _ | pv' <;> rcases k' with _ | kv' <;> rfl
      rw [hencSome, hiff]
      simp

/-- C3 witness: the iff applied to the token `"enc=pv1,vg1,pass=x"`, whose
parse carries an encryption descriptor, and the credential-free concrete
case. -/
theorem c3_enc_encryption_iff_witness :
    ((some (⟨"pv1", some "x", none⟩ : LvmEncryption)).isSome = true ↔
      ∃ f ∈ (rustSplit ',' "pv1,vg1,pass=x").drop 2,
        (strStartsWith f "pass=" || strStartsWith f "keyfile=") = true) ∧
    parse_fs "enc=pv1,vg1" = .ok (.lvm "vg1" none) :=
  ⟨c3_enc_encryption_iff.1 "pv1,vg1,pass=x" "vg1"
      (some ⟨"pv1", some "x", none⟩) (by decide),
    c3_enc_encryption_iff.2⟩

/-- C7: a Create operation token fails with `TooFewFields` when its
colon-split field count is below 5 and with `TooManyFields` when it
exceeds 7, regardless of the field contents or the topology state (the
bounds are enforced before any field is parsed). -/
theorem c7_create_field_bounds :
    (∀ (st : DisksState) (token : String),
      (rustSplit ':' token).length < 5 →
      configure_new_one st token = .error (.tooFewFields .create)) ∧
    (∀ (st : DisksState) (token : String),
      7 < (rustSplit ':' token).length →
      configure_new_one st token = .error (.tooManyFields .create)) := by
  constructor
  · intro st token h
    rw [configure_new_one, configure_new_values.eq_def, if_pos h]
  · intro st token h
    rw [configure_new_one, configure_new_values.eq_def, if_neg (by omega),
      if_pos h]

/-- C7 witness: a 4-field Create token fails with `TooFewFields` and an
8-field one with `TooManyFields`. -/
theorem c7_create_field_bounds_witness :
    ((rustSplit ':' "a:b:c:d").length < 5 ∧
      configure_new_one sampleState "a:b:c:d" = .error (.tooFewFields .create)) ∧
    (7 < (rustSplit ':' "a:b:c:d:e:f:g:h").length ∧
      configure_new_one sampleState "a:b:c:d:e:f:g:h" =
        .error (.tooManyFields .create)) :=
  ⟨⟨by decide, c7_create_field_bounds.1 sampleState "a:b:c:d" (by decide)⟩,
    ⟨by decide, c7_create_field_bounds.2 sampleState "a:b:c:d:e:f:g:h" (by decide)⟩⟩

/-- C10: a Create-Logical operation token whose filesystem field parses as
a Logical-Volume choice (an `lvm=` or `enc=` token) aborts via the
unimplemented-feature panic `"LUKS on LVM is unsupported"` rather than any
typed error of the taxonomy: the branch is a reachable panic. -/
theorem c10_logical_lvm_panics
    (g n sz fsTok : String) (rest : List String) (vg : String)
    (e : Option LvmEncryption)
    (mf : Option String × Option (List PartitionFlag)) (s0 : Sector)
    (hlen : rest.length ≤ 2)
    (hsuffix : parseLogicalSuffix rest none none = .ok mf)
    (hsize : parse_sector sz = .ok s0)
    (hfs : parse_fs fsTok = .ok (.lvm vg e)) :
    parseLogicalValues (g :: n :: sz :: fsTok :: rest) =
      .error (.panicked "LUKS on LVM is unsupported") := by
  obtain ⟨mount, flags⟩ := mf
  have h1 : ¬((g :: n :: sz :: fsTok :: rest).length < 4) := by
    simp only [List.length_cons]
    omega
  have h2 : ¬(6 < (g :: n :: sz :: fsTok :: rest).length) := by
    simp only [List.length_cons]
    omega
  rw [parseLogicalValues.eq_def, if_neg h1, if_neg h2]
  simp only [hsuffix, hsize, hfs, Except.bind, bind]

/-- C10 witness: the concrete token fields `vg1:lv1:100M:lvm=data` hit the
panic branch. -/
theorem c10_logical_lvm_panics_witness :
    parseLogicalValues ["vg1", "lv1", "100M", "lvm=data"] =
      .error (.panicked "LUKS on LVM is unsupported") :=
  c10_logical_lvm_panics "vg1" "lv1" "100M" "lvm=data" [] "data" none
    (none, none) (.megabyte 100) (by decide) (by decide) (by decide) (by decide)

/-- C5: a Reuse or Create operation token that supplies a `keyid=` suffix
field without a `mount=` suffix field fails with `MountRequiredWithKey`
(once the token is otherwise well-formed and its disk, and for Reuse its
partition, resolve). -/
theorem c5_keyid_requires_mount :
    (∀ (st : DisksState) (d : Disk) (block pidStr fsStr : String)
       (rest : List String) (v : Nat) (fs : Option PartType) (key : String)
       (fl : Option (List PartitionFlag)),
      rest.length ≤ 2 →
      parseU32 pidStr = some v →
      parseReuseFs fsStr = .ok fs →
      parseSuffixFields rest none none none = .ok (some key, none, fl) →
      findDisk st block = some d →
      (findPartition d (u32AsI32 v)).isSome = true →
      configure_reused_values st (block :: pidStr :: fsStr :: rest) =
        .error .mountRequiredWithKey) ∧
    (∀ (st : DisksState) (d : Disk) (block kindStr startStr endStr fsStr : String)
       (rest : List String) (kind : PartitionType) (s0 e0 : Sector)
       (f0 : PartType) (key : String) (fl : Option (List PartitionFlag)),
      rest.length ≤ 2 →
      parse_part_type kindStr = .ok kind →
      parse_sector startStr = .ok s0 →
      parse_sector endStr = .ok e0 →
      parse_fs fsStr = .ok f0 →
      parseSuffixFields rest none none none = .ok (some key, none, fl) →
      findDisk st block = some d →
      configure_new_values st
          (block :: kindStr :: startStr :: endStr :: fsStr :: rest) =
        .error .mountRequiredWithKey) := by
  constructor
  · intro st d block pidStr fsStr rest v fs key fl hlen hpid hfs hsuf hdisk hpart
    obtain ⟨part, hpart'⟩ := Option.isSome_iff_exists.mp hpart
    have h1 : ¬((block :: pidStr :: fsStr :: rest).length < 3) := by
      simp only [List.length_cons]
      omega
    have h2 : ¬(5 < (block :: pidStr :: fsStr :: rest).length) := by
      simp only [List.length_cons]
      omega
    rw [configure_reused_values.eq_def, if_neg h1, if_neg h2]
    simp only [hpid, hfs, hsuf, hdisk, hpart', Except.bind, bind]
  · intro st d block kindStr startStr endStr fsStr rest kind s0 e0 f0 key fl
      hlen hkind hstart hend hfs hsuf hdisk
    have h1 :
        ¬((block :: kindStr :: startStr :: endStr :: fsStr :: rest).length < 5) := by
      simp only [List.length_cons]
      omega
    have h2 :
        ¬(7 < (block :: kindStr :: startStr :: endStr :: fsStr :: rest).length) := by
      simp only [List.length_cons]
      omega
    rw [configure_new_values.eq_def, if_neg h1, if_neg h2]
    simp only [hkind, hstart, hend, hfs, hsuf, hdisk, Except.bind, bind]

/-- C5 witness: a Reuse token and a Create token on the sample disk, each
with `keyid=` and no `mount=`, fail with `MountRequiredWithKey`. -/
theorem c5_keyid_requires_mount_witness :
    configure_reused_values sampleState ["sda", "1", "reuse", "keyid=rootkey"] =
      .error .mountRequiredWithKey ∧
    configure_new_values sampleState
        ["sda", "primary", "0", "500M", "ext4", "keyid=k"] =
      .error .mountRequiredWithKey :=
  ⟨c5_keyid_requires_mount.1 sampleState sda "sda" "1" "reuse" ["keyid=rootkey"]
      1 none "rootkey" none (by decide) (by decide) (by decide) (by decide)
      rfl (by decide),
    c5_keyid_requires_mount.2 sampleState sda "sda" "primary" "0" "500M" "ext4"
      ["keyid=k"] .primary (.unit 0) (.megabyte 500) (.fs .ext4) "k" none
      (by decide) (by decide) (by decide) (by decide) (by decide) (by decide) rfl⟩

/-- C8: a Create-Logical operation on an existing volume group appends a
logical volume whose start sector is one past the end sector of the
group's last existing logical volume (zero when the group is empty) and
whose end sector is that start plus the normalized requested size; a
non-existent group fails with `VolumeGroupNotFound`. -/
theorem c8_create_logical_placement :
    (∀ (st : DisksState) (args : LogicalArgs),
      findLogical st args.group = none →
      configureLvmApply st args = .error (.volumeGroupNotFound args.group)) ∧
    (∀ (st : DisksState) (grp nm : String) (szv : Sector)
       (fsv : FileSystemType) (mnt : Option String)
       (flg : Option (List PartitionFlag)) (dev : LvmDevice),
      findLogical st grp = some dev →
      ∃ p : Partition,
        configureLvmApply st
            { group := grp, name := nm, size := szv, fs := fsv,
              mount := mnt, flags := flg } =
          .ok { st with
                logical := updateFirstLogical st.logical grp
                  (fun d => { d with partitions := d.partitions ++ [p] }) } ∧
        p.start_sector =
          (match dev.partitions.getLast? with
           | some q => q.end_sector + 1
           | none => 0) ∧
        p.end_sector = p.start_sector + dev.getSector szv ∧
        p.name = some nm) := by
  constructor
  · intro st args h
    rw [configureLvmApply.eq_def, h]
  · intro st grp nm szv fsv mnt flg dev h
    rw [configureLvmApply.eq_def]
    simp only [h]
    rcases mnt with _ | m <;> rcases flg with _ | fl <;>
      exact ⟨_, rfl, rfl, rfl, rfl⟩

/-- C8 witness: on the sample volume group (last logical volume ending at
sector 99, requested size resolving to 5 sectors) the new logical volume
spans sectors 100 to 105, and the missing group `vgX` fails with
`VolumeGroupNotFound`. -/
theorem c8_create_logical_placement_witness :
    configureLvmApply lvmState
        { group := "vgX", name := "x", size := Sector.unit 1,
          fs := FileSystemType.ext4, mount := none, flags := none } =
      .error (.volumeGroupNotFound "vgX") ∧
    ∃ p : Partition,
      configureLvmApply lvmState lvArgs =
        .ok { lvmState with
              logical := updateFirstLogical lvmState.logical "vg1"
                (fun d => { d with partitions := d.partitions ++ [p] }) } ∧
      p.start_sector = 100 ∧ p.end_sector = 105 ∧ p.name = some "lv" := by
  constructor
  · exact c8_create_logical_placement.1 lvmState
      { group := "vgX", name := "x", size := Sector.unit 1,
        fs := FileSystemType.ext4, mount := none, flags := none } rfl
  · obtain ⟨p, h1, h2, h3, h4⟩ :=
      c8_create_logical_placement.2 lvmState "vg1" "lv" (Sector.unit 5)
        FileSystemType.ext4 none none vgdev rfl
    have hstart : p.start_sector = 100 := by
      rw [h2]
      rfl
    have hend : p.end_sector = 105 := by
      rw [h3, hstart]
      rfl
    exact ⟨p, h1, hstart, hend, h4⟩
